import Mathlib

/-!
# yahcl: HTTP/1.0 client over one shared socket

A shallow embedding of `src/HttpRequest.hpp` (the per-request state machine)
and `src/HttpClient.hpp` (the request list and the polling of futures),
followed by theorems about them.

Bytes are modelled as `List Char`.  An `asio::error_code` is modelled by its
numeric value, `0` meaning success.  Asynchronous operations are modelled by
the record of the operation a request has outstanding together with the
handler bound to it; a handler is a pure function from the state before the
completion to the state after it.
-/

namespace yahcl

abbrev Bytes := List Char

/-! ## Character and string helpers -/

/-- The predicate `std::isspace` in the "C" locale. -/
def isspace (c : Char) : Bool :=
  c == ' ' || c == '\t' || c == '\n' || c == '\r' || c.toNat == 11 || c.toNat == 12

/-- The predicate `std::isdigit`. -/
def isdigit (c : Char) : Bool :=
  decide (48 ≤ c.toNat) && decide (c.toNat ≤ 57)

/-- The function `::tolower` in the "C" locale: only `A`..`Z` change. -/
def tolower (c : Char) : Char :=
  if 65 ≤ c.toNat ∧ c.toNat ≤ 90 then Char.ofNat (c.toNat + 32) else c

/-- Modelled from the spec: `yahcl::utils::trim` of `StringUtils.hpp`, which is
not among the sources; the spec describes it as trimming surrounding
whitespace.  Leading and trailing `isspace` characters are removed. -/
def trim (s : Bytes) : Bytes :=
  ((s.dropWhile isspace).reverse.dropWhile isspace).reverse

/-- Modelled from the spec: `yahcl::utils::trim_copy` of `StringUtils.hpp`, the
copying variant of `trim`. -/
def trim_copy (s : Bytes) : Bytes := trim s

/-- The value of a run of decimal digits. -/
def digitsValue (ds : Bytes) : Nat :=
  ds.foldl (fun acc d => acc * 10 + (d.toNat - 48)) 0

/-- Largest `unsigned int`. -/
def UINT_MAX : Nat := 2 ^ 32 - 1

/-- Largest `unsigned long` / `std::size_t` (LP64). -/
def ULONG_MAX : Nat := 2 ^ 64 - 1

/-! ## Exceptions and completion values -/

deriving instance DecidableEq for Except

/-- The exceptions the two classes raise or let through. -/
inductive Exn where
  | system_error (ec : Nat)
  | runtime_error (what : String)
  | invalid_argument (what : String)
  | out_of_range (what : String)
  | future_error
  deriving DecidableEq, Repr

/-- The shared state of `std::promise<std::string>` once satisfied. -/
inductive Completion where
  | value (body : Bytes)
  | exception (e : Exn)
  deriving DecidableEq, Repr

/-! ## A `std::istream` over the response buffer -/

/-- The part of a `std::istream` the handlers use: the unread bytes and the
two state bits. -/
structure IStream where
  buf : Bytes
  eofbit : Bool
  failbit : Bool
  deriving DecidableEq, Repr

/-- A fresh stream over a buffer: `std::istream response_stream(&response_)`. -/
def IStream.over (buf : Bytes) : IStream := { buf := buf, eofbit := false, failbit := false }

/-- The state test `good()`. -/
def IStream.good (s : IStream) : Bool := !s.eofbit && !s.failbit

/-- The conversion of a stream to `bool`, that is `!fail()`. -/
def IStream.ok (s : IStream) : Bool := !s.failbit

/-- The sentry of a formatted input function: fails on a stream that is not
good, otherwise skips leading whitespace and fails when that reaches the end. -/
def sentry_skipws (s : IStream) : IStream :=
  if !s.good then { s with failbit := true }
  else
    match s.buf.dropWhile isspace with
    | [] => { buf := [], eofbit := true, failbit := true }
    | b => { buf := b, eofbit := false, failbit := false }

/-- The extraction `stream >> std::string`: one whitespace-delimited token. -/
def extract_string (s : IStream) : IStream × Bytes :=
  let s1 := sentry_skipws s
  if s1.failbit then (s1, [])
  else
    let tok := s1.buf.takeWhile (fun c => !isspace c)
    let rest := s1.buf.dropWhile (fun c => !isspace c)
    ({ buf := rest, eofbit := rest.isEmpty, failbit := tok.isEmpty }, tok)

/-- Splits an optional sign off the front of a number. -/
def takeSign : Bytes → Bool × Bytes
  | '-' :: t => (true, t)
  | '+' :: t => (false, t)
  | b => (false, b)

/-- The extraction `stream >> unsigned int`: optional sign, decimal digits;
no digit or a value above `UINT_MAX` sets `failbit`; a minus sign negates
modulo `2 ^ 32`. -/
def extract_unsigned (s : IStream) : IStream × Nat :=
  let s1 := sentry_skipws s
  if s1.failbit then (s1, 0)
  else
    let sb := takeSign s1.buf
    let ds := sb.2.takeWhile isdigit
    let rest := sb.2.dropWhile isdigit
    if ds.isEmpty then ({ buf := rest, eofbit := rest.isEmpty, failbit := true }, 0)
    else if UINT_MAX < digitsValue ds then
      ({ buf := rest, eofbit := rest.isEmpty, failbit := true }, UINT_MAX)
    else
      ({ buf := rest, eofbit := rest.isEmpty, failbit := false },
        if sb.1 then (2 ^ 32 - digitsValue ds) % 2 ^ 32 else digitsValue ds)

/-- The function `std::getline(stream, line)`: fails on a stream that is not
good or has nothing left; otherwise takes the bytes before the next line
feed and drops the line feed. -/
def getline (s : IStream) : IStream × Bytes :=
  if !s.good then ({ s with failbit := true }, [])
  else
    match s.buf with
    | [] => ({ buf := [], eofbit := true, failbit := true }, [])
    | b =>
      match b.dropWhile (fun c => c != '\n') with
      | [] => ({ buf := [], eofbit := true, failbit := false }, b.takeWhile (fun c => c != '\n'))
      | _ :: rest =>
        ({ buf := rest, eofbit := false, failbit := false }, b.takeWhile (fun c => c != '\n'))

/-- The function `std::stoul` in base 10: skips leading whitespace, takes an
optional sign and the longest run of digits; throws `std::invalid_argument`
without a digit and `std::out_of_range` above `ULONG_MAX`; a minus sign
negates modulo `2 ^ 64`. -/
def stoul (str : Bytes) : Except Exn Nat :=
  let sb := takeSign (str.dropWhile isspace)
  let ds := sb.2.takeWhile isdigit
  if ds.isEmpty then .error (.invalid_argument "stoul")
  else if ULONG_MAX < digitsValue ds then .error (.out_of_range "stoul")
  else .ok (if sb.1 then (2 ^ 64 - digitsValue ds) % 2 ^ 64 else digitsValue ds)

/-! ## HttpRequest -/

/-- The completion handlers of `HttpRequest`. -/
inductive Handler where
  | on_write
  | on_read_status_line
  | on_read_headers
  | on_read_content
  deriving DecidableEq, Repr

/-- The asynchronous operations a request issues on the shared socket:
`asio::async_write` of a buffer, `asio::async_read_until` a delimiter, and
`asio::async_read` with `asio::transfer_exactly`. -/
inductive IoOp where
  | async_write (data : Bytes)
  | async_read_until (delim : Bytes)
  | async_read (transfer_exactly : Nat)
  deriving DecidableEq, Repr

/-- An operation in flight and the handler bound to its completion. -/
structure Pending where
  op : IoOp
  handler : Handler
  deriving DecidableEq, Repr

/-- The header map `std::unordered_map<std::string, std::string>`, as the
list of its entries. -/
abbrev response_header_type := List (Bytes × Bytes)

/-- The member `find` of the header map. -/
def response_header_type.find (m : response_header_type) (key : Bytes) : Option Bytes :=
  (List.find? (fun e => e.1 == key) m).map Prod.snd

/-- The member `insert` of the header map: no effect when the key is present. -/
def response_header_type.insert (m : response_header_type) (kv : Bytes × Bytes) :
    response_header_type :=
  match m.find kv.1 with
  | some _ => m
  | none => m ++ [kv]

/-- The state of one `HttpRequest`.  The socket and the response buffer are
references to members of the client and are passed to the handlers.
`pending` is the operation the request has in flight; `escaped` records an
exception that left a handler uncaught. -/
structure HttpRequest where
  request_ : Bytes
  promise_ : Option Completion
  response_header_ : response_header_type
  pending : Option Pending
  escaped : Option Exn
  deriving DecidableEq, Repr

/-- The call `promise_.set_value(v)`: throws `std::future_error` when the
promise is already satisfied. -/
def HttpRequest.set_value (r : HttpRequest) (v : Bytes) : HttpRequest :=
  match r.promise_ with
  | none => { r with promise_ := some (.value v) }
  | some _ => { r with escaped := some .future_error }

/-- The call `promise_.set_exception(e)`: throws `std::future_error` when the
promise is already satisfied. -/
def HttpRequest.set_exception (r : HttpRequest) (e : Exn) : HttpRequest :=
  match r.promise_ with
  | none => { r with promise_ := some (.exception e) }
  | some _ => { r with escaped := some .future_error }

/-- The insertion `request_stream << text`. -/
def ostream_put (buf : Bytes) (text : Bytes) : Bytes := buf ++ text

/-- The constructor `HttpRequest::HttpRequest`: fills the request buffer with
four stream insertions and starts the write. -/
def HttpRequest.new (method path : Bytes) : HttpRequest :=
  let b0 : Bytes := []
  let b1 := ostream_put (ostream_put (ostream_put (ostream_put b0 method) " ".toList) path)
    " HTTP/1.0\r\n".toList
  let b2 := ostream_put b1 "Accept: */*\r\n".toList
  let b3 := ostream_put b2 "Connection: keep-alive\r\n".toList
  let b4 := ostream_put b3 "\r\n".toList
  { request_ := b4
    promise_ := none
    response_header_ := []
    pending := some { op := .async_write b4, handler := .on_write }
    escaped := none }

/-- The handler `HttpRequest::on_write`. -/
def on_write (r : HttpRequest) (ec : Nat) : HttpRequest :=
  let r := { r with pending := none }
  if ec ≠ 0 then r.set_exception (.system_error ec)
  else
    { r with pending := some { op := .async_read_until "\r\n".toList,
                               handler := .on_read_status_line } }

/-- The handler `HttpRequest::on_read_status_line`, on the shared response
buffer; returns the request and the buffer left. -/
def on_read_status_line (r : HttpRequest) (response : Bytes) (ec : Nat) :
    HttpRequest × Bytes :=
  let r := { r with pending := none }
  if ec = 0 then
    let response_stream := IStream.over response
    let e1 := extract_string response_stream
    let http_version := e1.2
    let e2 := extract_unsigned e1.1
    let status_code := e2.2
    let e3 := getline e2.1
    if !e3.1.ok || http_version.take 5 != "HTTP/".toList || status_code != 200 then
      (r.set_exception (.runtime_error "Invalid response line"), e3.1.buf)
    else
      ({ r with pending := some { op := .async_read_until "\r\n\r\n".toList,
                                  handler := .on_read_headers } }, e3.1.buf)
  else
    (r.set_exception (.system_error ec), response)

/-- The member `find(c, 0)` of `std::string`: the index of the first
occurrence of the character, `none` for `npos`. -/
def find_char (c : Char) : Bytes → Option Nat
  | [] => none
  | x :: xs => if x = c then some 0 else (find_char c xs).map (fun i => i + 1)

/-- The body of the header loop of `on_read_headers` for one line. -/
def insert_header (m : response_header_type) (header : Bytes) : response_header_type :=
  match find_char ':' header with
  | some index =>
    let header_name := (trim (header.take index)).map tolower
    m.insert (header_name, trim_copy (header.drop (index + 1)))
  | none => m

/-- The loop `while (std::getline(response_stream, header) && header != "\r")`
of `on_read_headers`; `fuel` bounds the number of iterations. -/
def header_loop : Nat → IStream → response_header_type → IStream × response_header_type
  | 0, s, m => (s, m)
  | fuel + 1, s, m =>
    let g := getline s
    if g.1.ok && g.2 != "\r".toList then header_loop fuel g.1 (insert_header m g.2)
    else (g.1, m)

/-- The handler `HttpRequest::on_read_headers`. -/
def on_read_headers (r : HttpRequest) (response : Bytes) (ec : Nat)
    (_bytes_transferred : Nat) : HttpRequest × Bytes :=
  let r := { r with pending := none }
  if ec = 0 then
    let response_stream := IStream.over response
    let l := header_loop (response.length + 1) response_stream r.response_header_
    let r := { r with response_header_ := l.2 }
    match r.response_header_.find "content-length".toList with
    | some content_length_header =>
      match stoul content_length_header with
      | .ok content_length =>
        ({ r with pending := some { op := .async_read content_length,
                                    handler := .on_read_content } }, l.1.buf)
      | .error e => ({ r with escaped := some e }, l.1.buf)
    | none => (r.set_value [], l.1.buf)
  else
    (r.set_exception (.system_error ec), response)

/-- The handler `HttpRequest::on_read_content`.  `str` stands for what
`response_stream.str()` returns for the `std::ostringstream` the handler
constructs from the address of the response buffer: the class has no
constructor from a stream buffer, so the text is a parameter of the model.
The `try` block catches only what `set_value` throws, and the `catch` block
then calls `set_exception` on the same satisfied promise, which throws
again; `set_value` of the model records that exception as escaped. -/
def on_read_content (str : Bytes → Bytes) (r : HttpRequest) (response : Bytes) (ec : Nat)
    (_bytes_transferred : Nat) : HttpRequest × Bytes :=
  let r := { r with pending := none }
  if ec = 0 then
    ((r.set_value (str response)), response)
  else
    (r.set_exception (.system_error ec), response)

/-- Runs the handler bound to a completed operation. -/
def dispatch (str : Bytes → Bytes) (h : Handler) (r : HttpRequest) (response : Bytes)
    (ec : Nat) (bytes_transferred : Nat) : HttpRequest × Bytes :=
  match h with
  | .on_write => (on_write r ec, response)
  | .on_read_status_line => on_read_status_line r response ec
  | .on_read_headers => on_read_headers r response ec bytes_transferred
  | .on_read_content => on_read_content str r response ec bytes_transferred

/-- The response buffer after the operation a request has in flight received
bytes: only a read appends to it. -/
def received_into (r : HttpRequest) (response received : Bytes) : Bytes :=
  match r.pending with
  | some { op := .async_read_until _, .. } => response ++ received
  | some { op := .async_read _, .. } => response ++ received
  | _ => response

/-- Delivers the completion of the operation a request has in flight; a
request with no operation in flight has no handler registered and is left
as it is. -/
def deliver (str : Bytes → Bytes) (r : HttpRequest) (response : Bytes) (ec : Nat)
    (bytes_transferred : Nat) : HttpRequest × Bytes :=
  match r.pending with
  | some p => dispatch str p.handler r response ec bytes_transferred
  | none => (r, response)

/-! ## The socket as seen by one request -/

/-- The value of `asio::error::eof`. -/
def asio_error_eof : Nat := 2

/-- The peer's side of the socket: the segments still to arrive, each the
result of one `read_some`; whether the peer closes the connection after the
last one (otherwise it stays open and silent); and the error code writes
complete with. -/
structure Socket where
  incoming : List Bytes
  closes : Bool
  write_ec : Nat
  deriving DecidableEq, Repr

/-- Whether the delimiter occurs in the buffer. -/
def contains_delim (delim : Bytes) : Bytes → Bool
  | [] => delim.isEmpty
  | c :: cs => delim.isPrefixOf (c :: cs) || contains_delim delim cs

/-- The offset just after the first occurrence of the delimiter. -/
def delim_end (delim : Bytes) : Bytes → Nat
  | [] => delim.length
  | c :: cs => if delim.isPrefixOf (c :: cs) then delim.length else delim_end delim cs + 1

/-- The operation `asio::async_read_until`: completes at once when the buffer
already holds the delimiter, otherwise appends whole segments until it does;
the buffer may end up holding bytes beyond the delimiter.  Gives the error
code, the bytes-transferred argument, the segments left and the buffer;
`none` when the operation never completes. -/
def read_until (delim : Bytes) (closes : Bool) :
    List Bytes → Bytes → Option (Nat × Nat × List Bytes × Bytes)
  | [], buf =>
    if contains_delim delim buf then some (0, delim_end delim buf, [], buf)
    else if closes then some (asio_error_eof, 0, [], buf)
    else none
  | c :: cs, buf =>
    if contains_delim delim buf then some (0, delim_end delim buf, c :: cs, buf)
    else read_until delim closes cs (buf ++ c)

/-- Takes up to `n` bytes off the front of the arriving segments. -/
def take_bytes : Nat → List Bytes → Bytes × List Bytes
  | _, [] => ([], [])
  | n, c :: cs =>
    if n = 0 then ([], c :: cs)
    else if c.length ≤ n then
      let t := take_bytes (n - c.length) cs
      (c ++ t.1, t.2)
    else (c.take n, c.drop n :: cs)

/-- The operation `asio::async_read` with `asio::transfer_exactly(n)`: appends
`n` further bytes from the socket to the buffer, whatever the buffer holds
already. -/
def read_exactly (n : Nat) (closes : Bool) (incoming : List Bytes) (buf : Bytes) :
    Option (Nat × Nat × List Bytes × Bytes) :=
  let t := take_bytes n incoming
  if t.1.length = n then some (0, n, t.2, buf ++ t.1)
  else if closes then some (asio_error_eof, t.1.length, t.2, buf ++ t.1)
  else none

/-- Performs an operation against the socket and the response buffer. -/
def perform (op : IoOp) (sock : Socket) (buf : Bytes) : Option (Nat × Nat × Socket × Bytes) :=
  match op with
  | .async_write data => some (sock.write_ec, if sock.write_ec = 0 then data.length else 0, sock, buf)
  | .async_read_until delim =>
    (read_until delim sock.closes sock.incoming buf).map
      (fun x => (x.1, x.2.1, { sock with incoming := x.2.2.1 }, x.2.2.2))
  | .async_read n =>
    (read_exactly n sock.closes sock.incoming buf).map
      (fun x => (x.1, x.2.1, { sock with incoming := x.2.2.1 }, x.2.2.2))

/-- Runs one request alone on the socket: performs the operation in flight,
runs its handler, and goes on until the request has no operation in flight
or the operation never completes. -/
def drive (str : Bytes → Bytes) : Nat → HttpRequest → Bytes → Socket → HttpRequest × Bytes × Socket
  | 0, r, buf, sock => (r, buf, sock)
  | fuel + 1, r, buf, sock =>
    match r.pending with
    | none => (r, buf, sock)
    | some p =>
      match perform p.op sock buf with
      | none => (r, buf, sock)
      | some x =>
        let d := dispatch str p.handler r x.2.2.2 x.1 x.2.1
        drive str fuel d.1 d.2 x.2.2.1

/-! ## HttpClient -/

/-- A call of one of the two callbacks of a request; `id` numbers the
requests in the order of their creation and stands for the pair of
callbacks passed to `createRequest`.  The callbacks are taken to return
normally. -/
inductive Callback where
  | on_response (id : Nat) (response : Bytes)
  | on_exception (id : Nat) (e : Exn)
  deriving DecidableEq, Repr

/-- An element of `request_list_`: the request, whether the stored
`std::future` still refers to the shared state of the request's promise
(`valid()`), and the callbacks. -/
structure Entry where
  request : HttpRequest
  future_valid : Bool
  id : Nat
  deriving DecidableEq, Repr

/-- The state of an `HttpClient`: the shared response buffer, the request
list, whether `check_timer_` has a wait outstanding, the number of requests
created, and the callbacks called so far, oldest first. -/
structure HttpClient where
  response_ : Bytes
  request_list_ : List Entry
  timer_waiting : Bool
  created : Nat
  calls : List Callback
  deriving DecidableEq, Repr

/-- The constructor `HttpClient::HttpClient` after a successful resolve: the
connection attempt is started, the timer has an expiry but no wait. -/
def HttpClient.new : HttpClient :=
  { response_ := [], request_list_ := [], timer_waiting := false, created := 0, calls := [] }

/-- The member `HttpClient::createRequest`. -/
def createRequest (c : HttpClient) (method path : Bytes) : HttpClient :=
  let request := HttpRequest.new method path
  { c with
    request_list_ := c.request_list_ ++ [{ request := request, future_valid := true, id := c.created }]
    created := c.created + 1 }

/-- The loop of `check_promises` over the request list: gives the list left
and the callbacks called, in order.  Each element's future is moved into
the local `future`, which leaves the stored one without shared state. -/
def scan_requests : List Entry → List Entry × List Callback
  | [] => ([], [])
  | e :: es =>
    let rest := scan_requests es
    let future_valid := e.future_valid
    let e := { e with future_valid := false }
    match future_valid, e.request.promise_ with
    | true, some (.value response) => (rest.1, .on_response e.id response :: rest.2)
    | true, some (.exception x) => (rest.1, .on_exception e.id x :: rest.2)
    | _, _ => (e :: rest.1, rest.2)

/-- The handler `HttpClient::check_promises` of the timer. -/
def check_promises (c : HttpClient) (ec : Nat) : HttpClient :=
  let c :=
    if ec = 0 then
      let s := scan_requests c.request_list_
      { c with request_list_ := s.1, calls := c.calls ++ s.2 }
    else c
  { c with timer_waiting := true }

/-- The handler `HttpClient::on_connect`. -/
def on_connect (c : HttpClient) (ec : Nat) : HttpClient :=
  if ec = 0 then { c with timer_waiting := true } else c

/-- What can happen to a client: a call of `createRequest`, the completion of
the connection attempt, the expiry of the timer, and the completion of the
operation request `id` has in flight, after `received` was appended to the
response buffer. -/
inductive Event where
  | createRequest (method path : Bytes)
  | connect (ec : Nat)
  | timer (ec : Nat)
  | io (id : Nat) (ec : Nat) (received : Bytes) (bytes_transferred : Nat)
  deriving DecidableEq, Repr

/-- Delivers an I/O completion to the request numbered `id`, if it is still in
the list; `received` is what a read appended to the response buffer. -/
def deliver_to (str : Bytes → Bytes) (id ec : Nat) (received : Bytes) (bytes_transferred : Nat) :
    List Entry → Bytes → List Entry × Bytes
  | [], buf => ([], buf)
  | e :: es, buf =>
    if e.id = id then
      let d := deliver str e.request (received_into e.request buf received) ec bytes_transferred
      ({ e with request := d.1 } :: es, d.2)
    else
      let rest := deliver_to str id ec received bytes_transferred es buf
      (e :: rest.1, rest.2)

/-- One step of a client.  A timer without an outstanding wait has no handler
to run. -/
def step (str : Bytes → Bytes) (c : HttpClient) : Event → HttpClient
  | .createRequest method path => createRequest c method path
  | .connect ec => on_connect c ec
  | .timer ec => if c.timer_waiting then check_promises { c with timer_waiting := false } ec else c
  | .io id ec received bytes_transferred =>
    let d := deliver_to str id ec received bytes_transferred c.request_list_ c.response_
    { c with request_list_ := d.1, response_ := d.2 }

/-- A run of a client over a sequence of events. -/
def run (str : Bytes → Bytes) (c : HttpClient) (events : List Event) : HttpClient :=
  events.foldl (step str) c

/-- The number of requests of a client with an operation outstanding on the
shared socket. -/
def outstanding (c : HttpClient) : Nat :=
  (c.request_list_.filter (fun e => e.request.pending.isSome)).length

/-- The states a request passes through: the state the constructor leaves,
and every state reached from one of these by the completion of an
operation. -/
inductive Reachable (str : Bytes → Bytes) : HttpRequest → Prop where
  | new (method path : Bytes) : Reachable str (HttpRequest.new method path)
  | deliver (r : HttpRequest) (response : Bytes) (ec bytes_transferred : Nat) :
      Reachable str r → Reachable str (deliver str r response ec bytes_transferred).1

/-- Delivers a sequence of completions to one request, each with the bytes
received, its error code and its bytes-transferred argument. -/
def deliver_all (str : Bytes → Bytes) (r : HttpRequest) (response : Bytes) :
    List (Bytes × Nat × Nat) → HttpRequest × Bytes
  | [] => (r, response)
  | x :: xs =>
    let d := deliver str r (received_into r response x.1) x.2.1 x.2.2
    deliver_all str d.1 d.2 xs

/-- While a request has an operation in flight its promise is unset, no
exception has escaped, and before the body read its header map is empty. -/
def Inv (r : HttpRequest) : Prop :=
  ∀ p, r.pending = some p →
    r.promise_ = none ∧ r.escaped = none ∧
      (p.handler ≠ .on_read_content → r.response_header_ = [])

/-- How often the failure callback of request `id` was called. -/
def failure_count (id : Nat) (calls : List Callback) : Nat :=
  (calls.filter (fun c => match c with
    | .on_exception i _ => i == id
    | .on_response _ _ => false)).length

/-- Whether an event is the completion of the connection attempt. -/
def Event.isConnect : Event → Bool
  | .connect _ => true
  | _ => false


/-- A request that has written its text and read an accepted status line, so
that its header read is in flight. -/
def awaiting_headers : HttpRequest :=
  (on_read_status_line (on_write (HttpRequest.new "GET".toList "/".toList) 0)
    "HTTP/1.0 200 OK\r\n".toList 0).1

/-- The response of the first scenario of the spec, as one segment. -/
def hello_response : Bytes :=
  "HTTP/1.0 200 OK\r\nContent-Length: 5\r\n\r\nhello".toList


/-! ## The wording of the spec, for comparison with the handlers -/

/-- The lines the header loop reads before it stops, in order: the values
`header` takes in the body of the loop of `on_read_headers`. -/
def header_lines : Nat → IStream → List Bytes
  | 0, _ => []
  | fuel + 1, s =>
    let g := getline s
    if g.1.ok && g.2 != "\r".toList then g.2 :: header_lines fuel g.1 else []

/-- The header name of a line in the words of the spec: the text before the
first `:`, trimmed and lower-cased; a line without `:` has none. -/
def header_name (line : Bytes) : Option Bytes :=
  if ':' ∈ line then some ((trim (line.takeWhile (fun c => c != ':'))).map tolower) else none

/-- The header value of a line in the words of the spec: the text after the
first `:`, trimmed. -/
def header_value (line : Bytes) : Bytes :=
  trim ((line.dropWhile (fun c => c != ':')).drop 1)

/-- The value of the first line whose header name is the key. -/
def first_value (key : Bytes) (lines : List Bytes) : Option Bytes :=
  (lines.find? (fun l => header_name l == some key)).map header_value

theorem set_exception_of_unset (r : HttpRequest) (e : Exn) (h : r.promise_ = none) :
    r.set_exception e = { r with promise_ := some (.exception e) } := by
  simp [HttpRequest.set_exception, h]

theorem set_value_of_unset (r : HttpRequest) (v : Bytes) (h : r.promise_ = none) :
    r.set_value v = { r with promise_ := some (.value v) } := by
  simp [HttpRequest.set_value, h]

theorem set_exception_pending (r : HttpRequest) (e : Exn) :
    (r.set_exception e).pending = r.pending := by
  unfold HttpRequest.set_exception; split <;> rfl

theorem set_value_pending (r : HttpRequest) (v : Bytes) :
    (r.set_value v).pending = r.pending := by
  unfold HttpRequest.set_value; split <;> rfl

theorem inv_new (method path : Bytes) : Inv (HttpRequest.new method path) := by
  intro p _
  simp [HttpRequest.new]

theorem inv_dispatch (str : Bytes → Bytes) (r : HttpRequest) (p : Pending)
    (hp : r.pending = some p) (hr : Inv r) (response : Bytes) (ec n : Nat) :
    Inv (dispatch str p.handler r response ec n).1 := by
  obtain ⟨h1, h2, h3⟩ := hr p hp
  intro q hq
  cases hh : p.handler with
  | on_write =>
    have h4 := h3 (by simp [hh])
    simp only [hh, dispatch, on_write] at hq ⊢
    split at hq
    · rw [set_exception_pending] at hq; simp at hq
    · rename_i hec
      simp only [hec, if_false]
      simp at hq
      subst hq
      simp [h1, h2, h4]
  | on_read_status_line =>
    have h4 := h3 (by simp [hh])
    simp only [hh, dispatch, on_read_status_line] at hq ⊢
    split at hq
    · rename_i hec
      simp only [hec, if_true] at hq ⊢
      split at hq
      · rw [set_exception_pending] at hq; simp at hq
      · rename_i hc
        simp only [hc]
        simp at hq
        subst hq
        simp [h1, h2, h4]
    · rw [set_exception_pending] at hq; simp at hq
  | on_read_headers =>
    simp only [hh, dispatch, on_read_headers] at hq ⊢
    split at hq
    · rename_i hec
      simp only [hec, if_true] at hq ⊢
      split at hq
      · rename_i v hv
        split at hq
        · rename_i k hk
          simp at hq
          subst hq
          simp only [hv, hk]
          simp [h1, h2]
        · simp at hq
      · rw [set_value_pending] at hq; simp at hq
    · rw [set_exception_pending] at hq; simp at hq
  | on_read_content =>
    simp only [hh, dispatch, on_read_content] at hq
    split at hq
    · rw [set_value_pending] at hq; simp at hq
    · rw [set_exception_pending] at hq; simp at hq

theorem inv_of_reachable (str : Bytes → Bytes) (r : HttpRequest) (h : Reachable str r) :
    Inv r := by
  induction h with
  | new method path => exact inv_new method path
  | deliver r response ec n _ ih =>
    cases hp : r.pending with
    | none => simpa [deliver, hp] using ih
    | some p =>
      have := inv_dispatch str r p hp ih response ec n
      simpa [deliver, hp] using this

/-- A request with no operation in flight ignores every later completion. -/
theorem deliver_all_idle (str : Bytes → Bytes) (r : HttpRequest) (h : r.pending = none)
    (later : List (Bytes × Nat × Nat)) (response : Bytes) :
    (deliver_all str r response later).1 = r := by
  induction later generalizing response with
  | nil => rfl
  | cons x xs ih =>
    simp only [deliver_all, deliver, h]
    exact ih _

/-! ## The request text -/

/-- C9: for every method `m` and path `p` the bytes a new request queues for
writing are `m ++ " " ++ p ++ " HTTP/1.0\r\nAccept: */*\r\nConnection: keep-alive\r\n\r\n"`,
the operation the constructor starts is the write of exactly these bytes, and
the text ends with `"\r\n\r\n"`. -/
theorem request_text (method path : Bytes) :
    (HttpRequest.new method path).request_ =
        method ++ " ".toList ++ path ++
          " HTTP/1.0\r\nAccept: */*\r\nConnection: keep-alive\r\n\r\n".toList ∧
      (HttpRequest.new method path).pending =
        some { op := .async_write (method ++ " ".toList ++ path ++
                 " HTTP/1.0\r\nAccept: */*\r\nConnection: keep-alive\r\n\r\n".toList),
               handler := .on_write } ∧
      "\r\n\r\n".toList <:+ (HttpRequest.new method path).request_ := by
  have h : (HttpRequest.new method path).request_ =
      method ++ " ".toList ++ path ++
        " HTTP/1.0\r\nAccept: */*\r\nConnection: keep-alive\r\n\r\n".toList := by
    simp [HttpRequest.new, ostream_put]
  refine ⟨h, ?_, ?_⟩
  · simp [HttpRequest.new, ostream_put]
  · rw [h]
    refine ⟨method ++ " ".toList ++ path ++
      " HTTP/1.0\r\nAccept: */*\r\nConnection: keep-alive".toList, ?_⟩
    simp

/-! ## I/O errors -/

/-- C10: for every reachable state of a request with an operation in flight,
whichever of the four handlers is bound to it, when the operation completes
with a non-zero error code the promise is set to `std::system_error` of that
code, no operation is issued, the response buffer is left as it was, and no
later completion changes the request, so a value is never set. -/
theorem io_error_terminal (str : Bytes → Bytes) (r : HttpRequest) (hr : Reachable str r)
    (p : Pending) (hp : r.pending = some p) (response : Bytes) (ec n : Nat) (hec : ec ≠ 0)
    (later : List (Bytes × Nat × Nat)) :
    (deliver str r response ec n).1.promise_ = some (.exception (.system_error ec)) ∧
      (deliver str r response ec n).1.pending = none ∧
      (deliver str r response ec n).2 = response ∧
      (deliver_all str (deliver str r response ec n).1 (deliver str r response ec n).2 later).1
        = (deliver str r response ec n).1 := by
  obtain ⟨h1, -, -⟩ := inv_of_reachable str r hr p hp
  have key : (deliver str r response ec n).1.promise_ = some (.exception (.system_error ec)) ∧
      (deliver str r response ec n).1.pending = none ∧
      (deliver str r response ec n).2 = response := by
    simp only [deliver, hp]
    cases p.handler <;>
      simp [dispatch, on_write, on_read_status_line, on_read_headers, on_read_content, hec,
        HttpRequest.set_exception, h1]
  exact ⟨key.1, key.2.1, key.2.2, deliver_all_idle str _ key.2.1 later _⟩

/-- C10, at an instance: a request whose header read ends with error 104. -/
theorem io_error_terminal_witness :
    (deliver id (deliver id (deliver id (HttpRequest.new "GET".toList "/".toList) [] 0 0).1
        "HTTP/1.0 200 OK\r\n".toList 0 17).1 [] 104 0).1.promise_
      = some (.exception (.system_error 104)) :=
  (io_error_terminal id
    (deliver id (deliver id (HttpRequest.new "GET".toList "/".toList) [] 0 0).1
        "HTTP/1.0 200 OK\r\n".toList 0 17).1
    (Reachable.deliver _ _ _ _ (Reachable.deliver _ _ _ _ (Reachable.new _ _)))
    { op := .async_read_until "\r\n\r\n".toList, handler := .on_read_headers }
    (by decide) [] 104 0 (by decide) []).1

/-! ## Sequencing of requests on the shared socket -/

/-- C1 fails: after two calls of `createRequest` on a new client both
requests have their write outstanding while the promise of the first is
still unset, so two requests have an operation outstanding at once. -/
theorem second_write_not_held_back :
    (run id HttpClient.new [.createRequest "GET".toList "/a".toList,
        .createRequest "GET".toList "/b".toList]).request_list_.map
        (fun e => (e.id, e.request.promise_, e.request.pending.map Pending.handler))
      = [(0, none, some .on_write), (1, none, some .on_write)] ∧
    ¬ outstanding (run id HttpClient.new [.createRequest "GET".toList "/a".toList,
        .createRequest "GET".toList "/b".toList]) ≤ 1 := by
  decide

/-- C1 as amended: `createRequest` starts the write of the new request at
once, whatever state the earlier requests are in: it appends a request whose
write of its text is outstanding and leaves the other entries as they are,
so the number of requests with an operation outstanding grows by one. -/
theorem createRequest_starts_write (c : HttpClient) (method path : Bytes) :
    (createRequest c method path).request_list_ =
        c.request_list_ ++
          [{ request := HttpRequest.new method path, future_valid := true, id := c.created }] ∧
      (HttpRequest.new method path).pending =
        some { op := .async_write (HttpRequest.new method path).request_, handler := .on_write } ∧
      (HttpRequest.new method path).promise_ = none ∧
      outstanding (createRequest c method path) = outstanding c + 1 := by
  refine ⟨rfl, rfl, rfl, ?_⟩
  simp [outstanding, createRequest, HttpRequest.new, List.filter_append]

/-! ## Polling of the futures -/

/-- C2, the code at the failing input: a request is created, the timer fires
once while the request is pending, the request then completes with the
empty body, and the timer fires twice more.  The request stays in the list
with its promise satisfied and its stored future invalid, and no callback
has been called. -/
theorem polled_while_pending_never_called :
    (run id HttpClient.new [.connect 0, .createRequest "GET".toList "/".toList, .timer 0,
        .io 0 0 [] 55, .io 0 0 "HTTP/1.0 200 OK\r\nServer: x\r\n\r\n".toList 17,
        .io 0 0 [] 14, .timer 0, .timer 0]).request_list_.map
        (fun e => (e.id, e.request.promise_, e.future_valid))
      = [(0, some (.value []), false)] ∧
    (run id HttpClient.new [.connect 0, .createRequest "GET".toList "/".toList, .timer 0,
        .io 0 0 [] 55, .io 0 0 "HTTP/1.0 200 OK\r\nServer: x\r\n\r\n".toList 17,
        .io 0 0 [] 14, .timer 0, .timer 0]).calls = [] := by
  decide

/-! ## Failure of the connection attempt -/

/-- C3 fails: a request is pending, the connection attempt fails with error
111, the request's write then fails with error 32, and the timer expires
twice.  No callback is called, so the failure callback of the request is not
called exactly once. -/
theorem connect_failure_calls_nothing :
    (run id HttpClient.new [.createRequest "GET".toList "/".toList, .connect 111,
        .io 0 32 [] 0, .timer 0, .timer 0]).calls = [] ∧
    failure_count 0 (run id HttpClient.new [.createRequest "GET".toList "/".toList,
        .connect 111, .io 0 32 [] 0, .timer 0, .timer 0]).calls ≠ 1 := by
  decide

theorem run_without_timer (str : Bytes → Bytes) (evs : List Event) :
    ∀ c : HttpClient, c.timer_waiting = false → (∀ e ∈ evs, e.isConnect = false) →
      (run str c evs).calls = c.calls ∧ (run str c evs).timer_waiting = false := by
  induction evs with
  | nil => intro c hc _; exact ⟨rfl, hc⟩
  | cons e es ih =>
    intro c hc hev
    have he : e.isConnect = false := hev e (List.mem_cons_self _ _)
    have hes : ∀ x ∈ es, x.isConnect = false := fun x hx => hev x (List.mem_cons_of_mem _ hx)
    have hstep : (step str c e).calls = c.calls ∧ (step str c e).timer_waiting = false := by
      cases e with
      | createRequest m p => exact ⟨rfl, hc⟩
      | connect ec => simp [Event.isConnect] at he
      | timer ec => simp [step, hc]
      | io i ec rc n => exact ⟨rfl, hc⟩
    have := ih (step str c e) hstep.2 hes
    simp only [run, List.foldl_cons] at this ⊢
    exact ⟨this.1.trans hstep.1, this.2⟩

/-- C3 as amended: when `on_connect` is called with an error on a client whose
timer has no wait outstanding, no callback of any request is called, neither
a failure callback nor a success callback, then or after any later sequence
of request creations, I/O completions and timer expiries: the timer is never
started, so `check_promises` never runs. -/
theorem failed_connect_never_calls_back (str : Bytes → Bytes) (c : HttpClient)
    (hc : c.timer_waiting = false) (ec : Nat) (hec : ec ≠ 0) (evs : List Event)
    (hev : ∀ e ∈ evs, e.isConnect = false) :
    (on_connect c ec).calls = c.calls ∧
      (run str (on_connect c ec) evs).calls = c.calls ∧
      (run str (on_connect c ec) evs).timer_waiting = false := by
  have h : on_connect c ec = c := by simp [on_connect, hec]
  rw [h]
  exact ⟨rfl, run_without_timer str evs c hc hev⟩

/-- C3 as amended, at an instance: one pending request, error 111, then the
failure of the request's write and two timer expiries. -/
theorem failed_connect_never_calls_back_witness :
    (run id (on_connect (createRequest HttpClient.new "GET".toList "/".toList) 111)
        [.io 0 32 [] 0, .timer 0, .timer 0]).calls = [] :=
  (failed_connect_never_calls_back id (createRequest HttpClient.new "GET".toList "/".toList)
    (by decide) 111 (by decide) [.io 0 32 [] 0, .timer 0, .timer 0] (by decide)).2.1

/-! ## The body -/

theorem drive_succ (str : Bytes → Bytes) (fuel : Nat) (r : HttpRequest) (buf : Bytes)
    (sock : Socket) (p : Pending) (x : Nat × Nat × Socket × Bytes)
    (hp : r.pending = some p) (hx : perform p.op sock buf = some x) :
    drive str (fuel + 1) r buf sock =
      drive str fuel (dispatch str p.handler r x.2.2.2 x.1 x.2.1).1
        (dispatch str p.handler r x.2.2.2 x.1 x.2.1).2 x.2.2.1 := by
  simp [drive, hp, hx]

theorem drive_stuck (str : Bytes → Bytes) (fuel : Nat) (r : HttpRequest) (buf : Bytes)
    (sock : Socket) (p : Pending)
    (hp : r.pending = some p) (hx : perform p.op sock buf = none) :
    drive str (fuel + 1) r buf sock = (r, buf, sock) := by
  simp [drive, hp, hx]

theorem drive_body_error (str : Bytes → Bytes) (r : HttpRequest) (buf : Bytes) (sock : Socket)
    (n : Nat) (x : Nat × Nat × Socket × Bytes) (hq : r.promise_ = none)
    (hp : r.pending = some { op := .async_read n, handler := .on_read_content })
    (hx : perform (.async_read n) sock buf = some x) (hec : x.1 ≠ 0) :
    (drive str 1 r buf sock).1.promise_ = some (.exception (.system_error x.1)) := by
  rw [drive_succ str 0 r buf sock _ x hp hx]
  simp [drive, dispatch, on_read_content, hec, HttpRequest.set_exception, hq]

/-- The first three handlers on the response of the first scenario arriving
as one segment: the write, the status line and the headers. -/
theorem hello_three_steps (str : Bytes → Bytes) (closes : Bool) :
    drive str 4 (HttpRequest.new "GET".toList "/".toList) []
        { incoming := [hello_response], closes := closes, write_ec := 0 } =
      drive str 1
        (on_read_headers (on_read_status_line (on_write (HttpRequest.new "GET".toList "/".toList) 0)
          hello_response 0).1 "Content-Length: 5\r\n\r\nhello".toList 0 21).1
        "hello".toList { incoming := [], closes := closes, write_ec := 0 } := by
  have hb : (on_read_status_line (on_write (HttpRequest.new "GET".toList "/".toList) 0)
      hello_response 0).2 = "Content-Length: 5\r\n\r\nhello".toList := by decide
  have hc : (on_read_headers (on_read_status_line
      (on_write (HttpRequest.new "GET".toList "/".toList) 0) hello_response 0).1
      "Content-Length: 5\r\n\r\nhello".toList 0 21).2 = "hello".toList := by decide
  cases closes
  · rw [drive_succ str 3 _ _ _
      { op := .async_write (HttpRequest.new "GET".toList "/".toList).request_, handler := .on_write }
      (0, 55, { incoming := [hello_response], closes := false, write_ec := 0 }, [])
      (by decide) (by decide)]
    simp only [dispatch]
    rw [drive_succ str 2 _ _ _
      { op := .async_read_until "\r\n".toList, handler := .on_read_status_line }
      (0, 17, { incoming := [], closes := false, write_ec := 0 }, hello_response)
      (by decide) (by decide)]
    simp only [dispatch, hb]
    rw [drive_succ str 1 _ _ _
      { op := .async_read_until "\r\n\r\n".toList, handler := .on_read_headers }
      (0, 21, { incoming := [], closes := false, write_ec := 0 },
        "Content-Length: 5\r\n\r\nhello".toList)
      (by decide) (by decide)]
    simp only [dispatch, hc]
  · rw [drive_succ str 3 _ _ _
      { op := .async_write (HttpRequest.new "GET".toList "/".toList).request_, handler := .on_write }
      (0, 55, { incoming := [hello_response], closes := true, write_ec := 0 }, [])
      (by decide) (by decide)]
    simp only [dispatch]
    rw [drive_succ str 2 _ _ _
      { op := .async_read_until "\r\n".toList, handler := .on_read_status_line }
      (0, 17, { incoming := [], closes := true, write_ec := 0 }, hello_response)
      (by decide) (by decide)]
    simp only [dispatch, hb]
    rw [drive_succ str 1 _ _ _
      { op := .async_read_until "\r\n\r\n".toList, handler := .on_read_headers }
      (0, 21, { incoming := [], closes := true, write_ec := 0 },
        "Content-Length: 5\r\n\r\nhello".toList)
      (by decide) (by decide)]
    simp only [dispatch, hc]

/-- C5, the code at the failing input: the response of the first scenario
arrives as one segment.  The status-line read takes the whole segment into
the buffer, the header loop leaves `hello` in it, and the body read asks the
socket for five further bytes.  When the peer then closes, the read fails
with `asio::error::eof` and the promise holds `std::system_error`; when the
peer stays silent the read never completes and the promise stays unset.  In
neither case is `hello` delivered, whatever `str` is. -/
theorem body_read_ignores_buffered_bytes (str : Bytes → Bytes) :
    (drive str 4 (HttpRequest.new "GET".toList "/".toList) []
        { incoming := [hello_response], closes := true, write_ec := 0 }).1.promise_
      = some (.exception (.system_error asio_error_eof)) ∧
    (drive str 4 (HttpRequest.new "GET".toList "/".toList) []
        { incoming := [hello_response], closes := false, write_ec := 0 }).1.promise_ = none ∧
    (drive str 4 (HttpRequest.new "GET".toList "/".toList) []
        { incoming := [hello_response], closes := false, write_ec := 0 }).1.pending
      = some { op := .async_read 5, handler := .on_read_content } ∧
    (drive str 4 (HttpRequest.new "GET".toList "/".toList) []
        { incoming := [hello_response], closes := false, write_ec := 0 }).2.1
      = "hello".toList := by
  have h1 : (on_read_headers (on_read_status_line
      (on_write (HttpRequest.new "GET".toList "/".toList) 0) hello_response 0).1
      "Content-Length: 5\r\n\r\nhello".toList 0 21).1.promise_ = none := by decide
  have h2 : (on_read_headers (on_read_status_line
      (on_write (HttpRequest.new "GET".toList "/".toList) 0) hello_response 0).1
      "Content-Length: 5\r\n\r\nhello".toList 0 21).1.pending
      = some { op := .async_read 5, handler := .on_read_content } := by decide
  have hstuck := drive_stuck str 0 _ "hello".toList
    { incoming := [], closes := false, write_ec := 0 } _ h2 (by decide)
  have hfail := drive_body_error str _ "hello".toList
    { incoming := [], closes := true, write_ec := 0 } 5
    (asio_error_eof, 0, { incoming := [], closes := true, write_ec := 0 }, "hello".toList)
    h1 h2 (by decide) (by decide)
  refine ⟨?_, ?_, ?_, ?_⟩
  · rw [hello_three_steps]; exact hfail
  · rw [hello_three_steps, hstuck]; exact h1
  · rw [hello_three_steps, hstuck]; exact h2
  · rw [hello_three_steps, hstuck]

/-! ## Malformed content-length -/

/-- C6, the code at the failing inputs: for the values `abc` and the empty
string `std::stoul` throws `std::invalid_argument`, which leaves the handler
uncaught, and the promise stays unset; for `-1` the value wraps to
`2 ^ 64 - 1` and a body read of that many bytes is issued. -/
theorem malformed_content_length_unhandled :
    ((on_read_headers awaiting_headers "Content-Length: abc\r\n\r\n".toList 0 23).1.promise_ = none ∧
      (on_read_headers awaiting_headers "Content-Length: abc\r\n\r\n".toList 0 23).1.escaped
        = some (.invalid_argument "stoul") ∧
      (on_read_headers awaiting_headers "Content-Length: abc\r\n\r\n".toList 0 23).1.pending = none) ∧
    ((on_read_headers awaiting_headers "Content-Length: \r\n\r\n".toList 0 20).1.promise_ = none ∧
      (on_read_headers awaiting_headers "Content-Length: \r\n\r\n".toList 0 20).1.escaped
        = some (.invalid_argument "stoul")) ∧
    ((on_read_headers awaiting_headers "Content-Length: -1\r\n\r\n".toList 0 22).1.promise_ = none ∧
      (on_read_headers awaiting_headers "Content-Length: -1\r\n\r\n".toList 0 22).1.pending
        = some { op := .async_read (2 ^ 64 - 1), handler := .on_read_content }) := by
  decide

/-! ## The status line -/

theorem extract_unsigned_failed (s : IStream) (h : s.failbit = true) :
    (extract_unsigned s).1.failbit = true := by
  simp [extract_unsigned, sentry_skipws, IStream.good, h]

theorem find_char_none (c : Char) (l : Bytes) : find_char c l = none ↔ c ∉ l := by
  induction l with
  | nil => simp [find_char]
  | cons x xs ih =>
    by_cases h : x = c
    · simp [find_char, h]
    · have h' : ¬ c = x := fun e => h e.symm
      simp [find_char, h, h', ih]

theorem find_char_some (c : Char) (l : Bytes) (i : Nat) (h : find_char c l = some i) :
    l.take i = l.takeWhile (fun x => x != c) ∧
      l.drop (i + 1) = (l.dropWhile (fun x => x != c)).drop 1 := by
  induction l generalizing i with
  | nil => simp [find_char] at h
  | cons x xs ih =>
    by_cases hx : x = c
    · simp [find_char, hx] at h
      subst h
      simp [hx]
    · simp only [find_char, hx, if_false, Option.map_eq_some'] at h
      obtain ⟨j, hj, rfl⟩ := h
      obtain ⟨h1, h2⟩ := ih j hj
      have hne : (x != c) = true := by simp [hx]
      simp [List.takeWhile_cons, List.dropWhile_cons, hne, h1, h2]

/-- The loop body of `on_read_headers` in the words of the spec. -/
theorem insert_header_eq (m : response_header_type) (line : Bytes) :
    insert_header m line =
      match header_name line with
      | some k => m.insert (k, header_value line)
      | none => m := by
  unfold insert_header header_name header_value
  cases h : find_char ':' line with
  | none =>
    have := (find_char_none ':' line).1 h
    simp [this]
  | some i =>
    have hmem : ':' ∈ line := by
      by_contra hc
      rw [(find_char_none ':' line).2 hc] at h
      simp at h
    obtain ⟨h1, h2⟩ := find_char_some ':' line i h
    simp [hmem, h1, h2, trim_copy]

theorem find_insert (m : response_header_type) (k v key : Bytes) :
    (m.insert (k, v)).find key = (m.find key).or (if k = key then some v else none) := by
  unfold response_header_type.insert
  cases h : m.find k with
  | some w =>
    by_cases hk : k = key
    · subst hk; simp [h]
    · simp [hk]
  | none =>
    simp only [response_header_type.find, List.find?_append, Option.map_or']
    by_cases hk : k = key
    · simp [hk]
    · simp [hk]

theorem find_insert_header (m : response_header_type) (line key : Bytes) :
    (insert_header m line).find key =
      (m.find key).or (if header_name line = some key then some (header_value line) else none) := by
  rw [insert_header_eq]
  cases h : header_name line with
  | none => simp
  | some k => simp [find_insert]

theorem find_foldl_insert_header (lines : List Bytes) (m : response_header_type) (key : Bytes) :
    (lines.foldl insert_header m).find key = (m.find key).or (first_value key lines) := by
  induction lines generalizing m with
  | nil => simp [first_value]
  | cons l ls ih =>
    rw [List.foldl_cons, ih, find_insert_header]
    by_cases h : header_name l = some key
    · simp [h, first_value, Option.or_assoc]
    · have h' : (header_name l == some key) = false := by simp [h]
      simp [h, first_value, List.find?_cons, h']

theorem header_loop_eq (fuel : Nat) (s : IStream) (m : response_header_type) :
    (header_loop fuel s m).2 = (header_lines fuel s).foldl insert_header m := by
  induction fuel generalizing s m with
  | zero => rfl
  | succ k ih =>
    simp only [header_loop, header_lines]
    split
    · rw [ih]; rfl
    · rfl

theorem getline_shrinks (s : IStream) (h : (getline s).1.ok = true) :
    (getline s).1.buf.length < s.buf.length := by
  unfold getline at h ⊢
  by_cases hg : (!s.good) = true
  · simp [hg, IStream.ok] at h
  · simp only [hg, if_false] at h ⊢
    cases hb : s.buf with
    | nil => simp [hb, IStream.ok] at h
    | cons y ys =>
      have hlen : (List.dropWhile (fun c => c != '\n') (y :: ys)).length ≤ (y :: ys).length :=
        (List.dropWhile_suffix (fun c => c != '\n')).length_le
      cases hd : List.dropWhile (fun c => c != '\n') (y :: ys) with
      | nil => simp [hd]
      | cons x rest =>
        rw [hd] at hlen
        simp only [hd, Bool.false_eq_true, if_false]
        simp only [List.length_cons] at hlen ⊢
        omega

/-- The header loop stops by its own condition: more fuel than the buffer
has bytes reads the same lines. -/
theorem header_lines_fuel (fuel : Nat) (s : IStream) (h : s.buf.length < fuel) :
    header_lines fuel s = header_lines (s.buf.length + 1) s := by
  have step : ∀ (k : Nat) (t : IStream), t.buf.length < k →
      header_lines k t = header_lines (k + 1) t := by
    intro k
    induction k with
    | zero => intro t ht; omega
    | succ j ih =>
      intro t ht
      rw [header_lines, header_lines]
      by_cases hc : ((getline t).1.ok && (getline t).2 != "\r".toList) = true
      · simp only [hc, if_true]
        have hok : (getline t).1.ok = true := by
          simp only [Bool.and_eq_true] at hc; exact hc.1
        have := getline_shrinks t hok
        rw [ih (getline t).1 (by omega)]
      · simp only [hc, if_false]
        simp
  have mono : ∀ d : Nat, header_lines (s.buf.length + 1 + d) s = header_lines (s.buf.length + 1) s := by
    intro d
    induction d with
    | zero => rfl
    | succ e ih =>
      rw [← ih, ← Nat.add_assoc, ← step _ s (by omega)]
  obtain ⟨d, rfl⟩ : ∃ d, fuel = s.buf.length + 1 + d := ⟨fuel - (s.buf.length + 1), by omega⟩
  exact mono d

theorem on_read_headers_map (r : HttpRequest) (response : Bytes) (n : Nat) :
    (on_read_headers r response 0 n).1.response_header_ =
      (header_lines (response.length + 1) (IStream.over response)).foldl insert_header
        r.response_header_ := by
  rw [← header_loop_eq]
  simp only [on_read_headers, if_true]
  split
  · split <;> rfl
  · unfold HttpRequest.set_value
    split <;> rfl

/-- C7: after `on_read_headers` has parsed a header block, looking a key up
in the header map gives the trimmed value of the first line that contains
`:` and whose name, trimmed and lower-cased, is the key, and gives nothing
when there is no such line; so later lines of the same name in any letter
case change nothing and lines without `:` add nothing.  The lines are those
the loop reads before the blank line, and the bound on the loop does not cut
them short. -/
theorem headers_first_wins (str : Bytes → Bytes) (r : HttpRequest) (hr : Reachable str r)
    (op : IoOp) (hp : r.pending = some { op := op, handler := .on_read_headers })
    (response : Bytes) (n : Nat) (key : Bytes) :
    (on_read_headers r response 0 n).1.response_header_.find key =
        first_value key (header_lines (response.length + 1) (IStream.over response)) ∧
      ∀ fuel, response.length < fuel →
        header_lines fuel (IStream.over response) =
          header_lines (response.length + 1) (IStream.over response) := by
  obtain ⟨-, -, hm⟩ := inv_of_reachable str r hr _ hp
  have hempty : r.response_header_ = [] := hm (by simp)
  refine ⟨?_, fun fuel hf => header_lines_fuel fuel (IStream.over response) hf⟩
  rw [on_read_headers_map, find_foldl_insert_header, hempty]
  simp [response_header_type.find]

/-- C7, at an instance: of two lines naming `X-Id` in different letter case
the first gives the value, and the line without `:` adds nothing. -/
theorem headers_first_wins_witness :
    (on_read_headers awaiting_headers
        "junk\r\n X-Id : one \r\nx-id: two\r\n\r\n".toList 0 33).1.response_header_.find
        "x-id".toList = some "one".toList :=
  ((headers_first_wins id awaiting_headers
    (Reachable.deliver _ "HTTP/1.0 200 OK\r\n".toList 0 17
      (Reachable.deliver _ [] 0 0 (Reachable.new "GET".toList "/".toList)))
    (.async_read_until "\r\n\r\n".toList) (by decide)
    "junk\r\n X-Id : one \r\nx-id: two\r\n\r\n".toList 33 "x-id".toList).1).trans (by decide)

/-! ## A response without content-length -/

/-- C8: when no line of the header block names `content-length`, in any
letter case, `on_read_headers` sets the promise to the empty body at once
and issues no operation; no exception escapes and no later completion
changes the request. -/
theorem no_content_length_empty_body (str : Bytes → Bytes) (r : HttpRequest)
    (hr : Reachable str r) (op : IoOp)
    (hp : r.pending = some { op := op, handler := .on_read_headers })
    (response : Bytes) (n : Nat) (later : List (Bytes × Nat × Nat))
    (hno : ∀ line ∈ header_lines (response.length + 1) (IStream.over response),
      header_name line ≠ some "content-length".toList) :
    (on_read_headers r response 0 n).1.promise_ = some (.value []) ∧
      (on_read_headers r response 0 n).1.pending = none ∧
      (on_read_headers r response 0 n).1.escaped = none ∧
      (deliver_all str (on_read_headers r response 0 n).1 (on_read_headers r response 0 n).2
          later).1 = (on_read_headers r response 0 n).1 := by
  obtain ⟨hq, he, hm⟩ := inv_of_reachable str r hr _ hp
  have hempty : r.response_header_ = [] := hm (by simp)
  have hfind : ((header_lines (response.length + 1) (IStream.over response)).foldl insert_header
      r.response_header_).find "content-length".toList = none := by
    rw [find_foldl_insert_header, hempty]
    have : first_value "content-length".toList
        (header_lines (response.length + 1) (IStream.over response)) = none := by
      unfold first_value
      rw [Option.map_eq_none', List.find?_eq_none]
      intro l hl
      simpa using hno l hl
    rw [this]
    simp [response_header_type.find]
  rw [← header_loop_eq] at hfind
  have hres : (on_read_headers r response 0 n).1 =
      { r with pending := none,
               response_header_ :=
                 (header_loop (response.length + 1) (IStream.over response) r.response_header_).2,
               promise_ := some (.value []) } := by
    simp only [on_read_headers, if_true, hfind]
    simp [HttpRequest.set_value, hq]
  have hpend : (on_read_headers r response 0 n).1.pending = none := by rw [hres]
  exact ⟨by rw [hres], hpend, by rw [hres]; exact he, deliver_all_idle str _ hpend later _⟩

/-- C8, at an instance: a header block with the single line `Server: x`. -/
theorem no_content_length_empty_body_witness :
    (on_read_headers awaiting_headers "Server: x\r\n\r\n".toList 0 13).1.promise_
      = some (.value []) :=
  (no_content_length_empty_body id awaiting_headers
    (Reachable.deliver _ "HTTP/1.0 200 OK\r\n".toList 0 17
      (Reachable.deliver _ [] 0 0 (Reachable.new "GET".toList "/".toList)))
    (.async_read_until "\r\n\r\n".toList) (by decide)
    "Server: x\r\n\r\n".toList 13 [] (by decide)).1

end yahcl
